import Mathlib

set_option autoImplicit false

/-!
Verification of the DDL-to-catalog loader of `loaders/parser.go`:
the catalog builder `NewSpannerLoaderFromDDL`, the schema accessors
`TableList`, `IndexList`, `IndexColumnList`, the primary-key resolver
`primaryKeyColumnList` and the view base-table resolver
`baseTablesForViewDDL`, embedded shallowly in Lean.

Modelling conventions:
* Go's `map[string]tableOrView` is represented by an association list with
  unique keys (`TableMap`); `mapGet`/`mapSet` give lookup and
  update-or-insert.  Go's `range` over a map enumerates entries in an
  unspecified order, so the accessor `TableList`, which ranges over the
  map, is parametrised by an enumeration: any permutation of the
  association list (`EnumOf`).
* Go errors created by `fmt.Errorf` are modelled as a structured value
  (`GoError`) recording the call site and its arguments; `GoError.message`
  renders the exact format string of the source.
* A Go nil-pointer dereference (there is no nil check on
  `t.createTable` in `TableList`, nor on `tbl.createTable` in
  `primaryKeyColumnList`) is modelled by the `nilPanic` outcome of
  `RunResult` (resp. `none` for `TableList`).
* The view resolver renders the stored `*ast.CreateView` back to SQL and
  re-parses it; for an AST produced by the parser this round trip is the
  identity, so `CreateView` directly stores the top-level FROM-source
  shape (`QuerySource`) that the re-parse would yield.
-/

namespace Yo

/-- Shape of the top level `From.Source` of a view query after re-parsing,
as discriminated by the type switch in `baseTablesForViewDDL`:
a plain table name (`*ast.TableName`), a join (`*ast.Join`), or any other
source shape, carrying the Go type name that `%T` would print. -/
inductive QuerySource where
  | tableName (name : String)
  | join
  | other (typeName : String)
deriving DecidableEq, Repr

/-- Embedding of memefish `*ast.CreateTable` restricted to the fields the
loader reads: the table name (`Name.Name`) and the declared primary-key
column names (`PrimaryKeys`, each `key.Name.Name`, in declaration order). -/
structure CreateTable where
  name : String
  primaryKeys : List String
deriving DecidableEq, Repr

/-- Embedding of memefish `*ast.CreateIndex` restricted to the fields the
loader reads: index name, target table name, uniqueness flag, the optional
storing clause (`Storing`, nil or a list of column names `c.Name`), the
key column names (`Keys`, each `c.Name.Name`), and the rendered statement
text `SQL()` used in error messages. -/
structure CreateIndex where
  name : String
  tableName : String
  unique : Bool
  storing : Option (List String)
  keys : List String
  sql : String
deriving DecidableEq, Repr

/-- Embedding of memefish `*ast.CreateView`: the view name and the
FROM-source shape its stored query re-parses to (see module comment). -/
structure CreateView where
  name : String
  querySource : QuerySource
deriving DecidableEq, Repr

/-- The only property of `val.TableAlteration` the loader inspects: whether
it is an `*ast.AddTableConstraint`. -/
inductive TableAlteration where
  | addTableConstraint
  | otherAlteration
deriving DecidableEq, Repr

/-- Embedding of memefish `*ast.AlterTable` restricted to what the loader
reads: the alteration kind and the rendered statement text `SQL()`. -/
structure AlterTable where
  alteration : TableAlteration
  sql : String
deriving DecidableEq, Repr

/-- A parsed DDL statement as dispatched by the type switch in
`NewSpannerLoaderFromDDL`.  `otherStatement` stands for any statement node
outside the four matched types (e.g. `*ast.DropTable`): the Go type switch
has no default case, so such a statement falls through unprocessed. -/
inductive DDL where
  | createTable (ct : CreateTable)
  | createIndex (ci : CreateIndex)
  | alterTable (a : AlterTable)
  | createView (cv : CreateView)
  | otherStatement (sql : String)
deriving DecidableEq, Repr

/-- Structured form of each `fmt.Errorf` call site in `parser.go`,
with the arguments the source interpolates. -/
inductive GoError where
  | undefinedTable (tableName stmtSQL : String)
  | unsupportedStmt (stmtSQL : String)
  | viewJoin
  | unknownSource (typeName : String)
deriving DecidableEq, Repr

/-- Rendered message of each error, following the exact format strings of
the source. -/
def GoError.message : GoError → String
  | .undefinedTable t sql =>
      "table '" ++ t ++ "' is undefined, but got '" ++ sql ++ "'"
  | .unsupportedStmt sql =>
      "stmt should be CreateTable, CreateIndex or AlterTableAddConstraint, but got '"
        ++ sql ++ "'"
  | .viewJoin => "view with join is not supported"
  | .unknownSource t => "unknown source type: " ++ t

/-- The per-table aggregate `tableOrView` of the source: at most one table
definition, the indexes in declaration order, at most one view definition.
The defaults are Go's zero value for the struct. -/
structure tableOrView where
  createTable : Option CreateTable := none
  createIndexes : List CreateIndex := []
  createView : Option CreateView := none
deriving DecidableEq, Repr

/-- The builder's `map[string]tableOrView`, as an association list with
unique keys. -/
abbrev TableMap := List (String × tableOrView)

/-- Map lookup, `v, ok := m[k]`. -/
def mapGet : TableMap → String → Option tableOrView
  | [], _ => none
  | (k', v) :: rest, k => if k' = k then some v else mapGet rest k

/-- Map lookup with Go's zero-value semantics, `v := m[k]`. -/
def mapGetZ (m : TableMap) (k : String) : tableOrView :=
  (mapGet m k).getD {}

/-- Map assignment `m[k] = v`: update the existing entry or insert a new
one. -/
def mapSet : TableMap → String → tableOrView → TableMap
  | [], k, v => [(k, v)]
  | (k', v') :: rest, k, v =>
      if k' = k then (k, v) :: rest else (k', v') :: mapSet rest k v

/-- One iteration of the statement loop of `NewSpannerLoaderFromDDL`:
the type switch over the parsed statement.  A statement of an unmatched
type is skipped (no default case in the switch). -/
def processDDL (tables : TableMap) : DDL → Except GoError TableMap
  | .createTable ct =>
      let v := mapGetZ tables ct.name
      .ok (mapSet tables ct.name { v with createTable := some ct })
  | .createIndex ci =>
      match mapGet tables ci.tableName with
      | none => .error (.undefinedTable ci.tableName ci.sql)
      | some v =>
          .ok (mapSet tables ci.tableName
            { v with createIndexes := v.createIndexes ++ [ci] })
  | .alterTable a =>
      match a.alteration with
      | .addTableConstraint => .ok tables
      | .otherAlteration => .error (.unsupportedStmt a.sql)
  | .createView cv =>
      let v := mapGetZ tables cv.name
      .ok (mapSet tables cv.name { v with createView := some cv })
  | .otherStatement _ => .ok tables

/-- The statement loop, starting from a given map state. -/
def buildTables : TableMap → List DDL → Except GoError TableMap
  | m, [] => .ok m
  | m, d :: rest =>
      match processDDL m d with
      | .error e => .error e
      | .ok m' => buildTables m' rest

/-- The loader state: the built catalog. -/
structure SpannerLoaderFromDDL where
  tables : TableMap
deriving DecidableEq, Repr

/-- Catalog construction from the parsed statement list (the file read and
the parse itself are the external parser's business and are not modelled;
a parse failure propagates before this loop runs). -/
def NewSpannerLoaderFromDDL (ddls : List DDL) : Except GoError SpannerLoaderFromDDL :=
  (buildTables [] ddls).map SpannerLoaderFromDDL.mk

/-- The `models.Table` descriptor as populated by `TableList`. -/
structure Table where
  TableName : String
  ManualPk : Bool
deriving DecidableEq, Repr

/-- The `models.Index` descriptor as populated by `IndexList`. -/
structure Index where
  IndexName : String
  IsUnique : Bool
deriving DecidableEq, Repr

/-- The `models.IndexColumn` descriptor as populated by
`IndexColumnList`. -/
structure IndexColumn where
  SeqNo : Nat
  Storing : Bool
  ColumnName : String
deriving DecidableEq, Repr

/-- The descriptor `TableList` builds for one aggregate:
`t.createTable.Name.Name` is dereferenced without a nil check, so a
view-only aggregate yields `none` (a nil-pointer panic in Go). -/
def tableDescr (t : tableOrView) : Option Table :=
  t.createTable.map fun ct => { TableName := ct.name, ManualPk := true }

/-- The loop body of `TableList` over one enumeration of the map
(`for _, t := range s.tables`); `none` models the panic. -/
def TableList : TableMap → Option (List Table)
  | [] => some []
  | (_, t) :: rest =>
      match tableDescr t with
      | none => none
      | some d => (TableList rest).map fun l => d :: l

/-- An enumeration of the catalog map as Go's `range` may produce it: any
permutation of the entries. -/
def EnumOf (s : SpannerLoaderFromDDL) (e : TableMap) : Prop :=
  e.Perm s.tables

/-- `IndexList`: one descriptor per index of the aggregate, in declaration
order (the returned Go error is always nil). -/
def IndexList (s : SpannerLoaderFromDDL) (name : String) : List Index :=
  (mapGetZ s.tables name).createIndexes.map fun ix =>
    { IndexName := ix.name, IsUnique := ix.unique }

/-- Outcome of a Go call that returns `(value, error)` but may also panic
on a nil dereference. -/
inductive RunResult (α : Type) where
  | ok (val : α)
  | err (e : GoError)
  | nilPanic
deriving DecidableEq, Repr

/-- Key columns numbered as by `for i, c := range ...` with `SeqNo: i + 1`:
the first call is `numberFrom 1`. -/
def numberFrom (n : Nat) : List String → List IndexColumn
  | [] => []
  | c :: cs => { SeqNo := n, Storing := false, ColumnName := c } :: numberFrom (n + 1) cs

/-- Storing columns, each with `SeqNo: 0, Storing: true`. -/
def storingCols (cs : List String) : List IndexColumn :=
  cs.map fun c => { SeqNo := 0, Storing := true, ColumnName := c }

/-- The columns emitted for one matched index: storing columns first (if
the `Storing` clause is present), then the key columns numbered from 1. -/
def indexColsOf (ix : CreateIndex) : List IndexColumn :=
  (match ix.storing with
   | none => []
   | some cs => storingCols cs) ++ numberFrom 1 ix.keys

/-- The scan loop of `IndexColumnList`: skip non-matching names, emit the
first match's columns and break; no match leaves the slice empty. -/
def scanIndexes (index : String) : List CreateIndex → List IndexColumn
  | [] => []
  | ix :: rest => if ix.name = index then indexColsOf ix else scanIndexes index rest

/-- `baseTablesForViewDDL` after the render/re-parse round trip (see module
comment): the type switch over the view query's top-level FROM source. -/
def baseTablesForViewDDL (src : QuerySource) : Except GoError (List String) :=
  match src with
  | .tableName n => .ok [n]
  | .join => .error .viewJoin
  | .other t => .error (.unknownSource t)

/-- The generic `firstOrDefault` at type `string`: Go's `*new(string)` is
the zero value `""`, passed here explicitly. -/
def firstOrDefault (dflt : String) (s : List String) : String :=
  match s with
  | [] => dflt
  | x :: _ => x

/-- The final loop of `primaryKeyColumnList`,
`for i, key := range tbl.createTable.PrimaryKeys`: dereferences
`tbl.createTable` without a nil check, hence `nilPanic` when it is
absent. -/
def pkFromCreateTable (o : Option CreateTable) : RunResult (List IndexColumn) :=
  match o with
  | none => .nilPanic
  | some ct => .ok (numberFrom 1 ct.primaryKeys)

/-- `primaryKeyColumnList`: an unregistered name yields `(nil, nil)`; a
view aggregate is redirected through `baseTablesForViewDDL` to the first
resolved base table's aggregate; the primary keys of the (possibly
redirected) aggregate's table definition are numbered from 1. -/
def primaryKeyColumnList (s : SpannerLoaderFromDDL) (table : String) :
    RunResult (List IndexColumn) :=
  match mapGet s.tables table with
  | none => .ok []
  | some tbl =>
      match tbl.createView with
      | some cv =>
          match baseTablesForViewDDL cv.querySource with
          | .error e => .err e
          | .ok sourceTable =>
              pkFromCreateTable
                (mapGetZ s.tables (firstOrDefault "" sourceTable)).createTable
      | none => pkFromCreateTable tbl.createTable

/-- `IndexColumnList`: the sentinel `"PRIMARY_KEY"` delegates to the
primary-key resolver, any other name scans the aggregate's index list. -/
def IndexColumnList (s : SpannerLoaderFromDDL) (table index : String) :
    RunResult (List IndexColumn) :=
  if index = "PRIMARY_KEY" then primaryKeyColumnList s table
  else .ok (scanIndexes index (mapGetZ s.tables table).createIndexes)

/-! Helper lemmas. -/

theorem numberFrom_length (l : List String) (n : Nat) :
    (numberFrom n l).length = l.length := by
  induction l generalizing n with
  | nil => rfl
  | cons c cs ih => simp [numberFrom, ih]

theorem numberFrom_getD (l : List String) (n i : Nat) (d : IndexColumn)
    (h : i < l.length) :
    (numberFrom n l).getD i d =
      { SeqNo := n + i, Storing := false, ColumnName := l.getD i "" } := by
  induction l generalizing n i with
  | nil => simp at h
  | cons c cs ih =>
    cases i with
    | zero => simp [numberFrom]
    | succ j =>
      have hj : j < cs.length := by simpa using h
      have hadd : n + 1 + j = n + (j + 1) := by omega
      simp only [numberFrom, List.getD_cons_succ]
      rw [ih (n + 1) j hj, hadd]

theorem storingCols_length (cs : List String) :
    (storingCols cs).length = cs.length := by
  simp [storingCols]

theorem storingCols_getD (cs : List String) (i : Nat) (d : IndexColumn)
    (h : i < cs.length) :
    (storingCols cs).getD i d =
      { SeqNo := 0, Storing := true, ColumnName := cs.getD i "" } := by
  induction cs generalizing i with
  | nil => simp at h
  | cons c rest ih =>
    cases i with
    | zero => simp [storingCols]
    | succ j =>
      have hj : j < rest.length := by simpa using h
      simpa [storingCols] using ih j hj

theorem buildTables_error_shape (ddls : List DDL) (m : TableMap) (e : GoError)
    (h : buildTables m ddls = .error e) :
    (∃ t q, e = .undefinedTable t q) ∨ ∃ q, e = .unsupportedStmt q := by
  induction ddls generalizing m with
  | nil => simp [buildTables] at h
  | cons d rest ih =>
    cases d with
    | createTable ct =>
      exact ih _ (by simpa [buildTables, processDDL] using h)
    | createIndex ci =>
      rcases hm : mapGet m ci.tableName with _ | v
      · simp [buildTables, processDDL, hm] at h
        exact Or.inl ⟨ci.tableName, ci.sql, h.symm⟩
      · exact ih _ (by simpa [buildTables, processDDL, hm] using h)
    | alterTable a =>
      cases ha : a.alteration with
      | addTableConstraint =>
        exact ih _ (by simpa [buildTables, processDDL, ha] using h)
      | otherAlteration =>
        simp [buildTables, processDDL, ha] at h
        exact Or.inr ⟨a.sql, h.symm⟩
    | createView cv =>
      exact ih _ (by simpa [buildTables, processDDL] using h)
    | otherStatement sql =>
      exact ih _ (by simpa [buildTables, processDDL] using h)

/-! Claims about the primary-key resolver. -/

/-- C1: for every catalog built from DDL and every registered table `T`
carrying a table definition (a table-shaped aggregate, i.e. no view
definition) with declared primary-key column names `k1..kn`,
`IndexColumnList T "PRIMARY_KEY"` returns exactly those columns with
sequence numbers `1..n` in the declared primary-key order, with no storing
flag set. -/
theorem c1_primary_key_of_table (ddls : List DDL) (s : SpannerLoaderFromDDL)
    (_hbuild : NewSpannerLoaderFromDDL ddls = .ok s)
    (T : String) (tbl : tableOrView) (ct : CreateTable)
    (hreg : mapGet s.tables T = some tbl)
    (htd : tbl.createTable = some ct)
    (hview : tbl.createView = none) :
    ∃ cols, IndexColumnList s T "PRIMARY_KEY" = .ok cols ∧
      cols.length = ct.primaryKeys.length ∧
      ∀ i, i < ct.primaryKeys.length →
        cols.getD i { SeqNo := 0, Storing := false, ColumnName := "" } =
          { SeqNo := i + 1, Storing := false,
            ColumnName := ct.primaryKeys.getD i "" } := by
  refine ⟨numberFrom 1 ct.primaryKeys, ?_, numberFrom_length _ _, ?_⟩
  · simp [IndexColumnList, primaryKeyColumnList, hreg, hview, htd, pkFromCreateTable]
  · intro i hi
    rw [numberFrom_getD _ _ _ _ hi, Nat.add_comm 1 i]

theorem c1_primary_key_of_table_witness :
    ∃ cols,
      IndexColumnList
        ⟨[("T", { createTable := some { name := "T", primaryKeys := ["k1", "k2"] } })]⟩
        "T" "PRIMARY_KEY" = .ok cols ∧
      cols.length = (["k1", "k2"] : List String).length ∧
      ∀ i, i < (["k1", "k2"] : List String).length →
        cols.getD i { SeqNo := 0, Storing := false, ColumnName := "" } =
          { SeqNo := i + 1, Storing := false,
            ColumnName := (["k1", "k2"] : List String).getD i "" } :=
  c1_primary_key_of_table
    [DDL.createTable { name := "T", primaryKeys := ["k1", "k2"] }]
    ⟨[("T", { createTable := some { name := "T", primaryKeys := ["k1", "k2"] } })]⟩
    rfl "T" _ _ rfl rfl rfl

/-- C4: for every view `V` whose stored query re-parses to a single table
reference `B`, with `B` registered in the catalog with a table definition,
`IndexColumnList V "PRIMARY_KEY"` returns exactly `B`'s primary-key
columns, with sequence numbers `1..n` in `B`'s declared primary-key
order. -/
theorem c4_view_primary_key_redirect (ddls : List DDL) (s : SpannerLoaderFromDDL)
    (_hbuild : NewSpannerLoaderFromDDL ddls = .ok s)
    (V B : String) (tbl tblB : tableOrView) (cv : CreateView) (ctB : CreateTable)
    (hreg : mapGet s.tables V = some tbl)
    (hv : tbl.createView = some cv)
    (hsrc : cv.querySource = .tableName B)
    (hbase : mapGet s.tables B = some tblB)
    (htB : tblB.createTable = some ctB) :
    ∃ cols, IndexColumnList s V "PRIMARY_KEY" = .ok cols ∧
      cols.length = ctB.primaryKeys.length ∧
      ∀ i, i < ctB.primaryKeys.length →
        cols.getD i { SeqNo := 0, Storing := false, ColumnName := "" } =
          { SeqNo := i + 1, Storing := false,
            ColumnName := ctB.primaryKeys.getD i "" } := by
  refine ⟨numberFrom 1 ctB.primaryKeys, ?_, numberFrom_length _ _, ?_⟩
  · simp [IndexColumnList, primaryKeyColumnList, hreg, hv, hsrc,
      baseTablesForViewDDL, firstOrDefault, mapGetZ, hbase, htB, pkFromCreateTable]
  · intro i hi
    rw [numberFrom_getD _ _ _ _ hi, Nat.add_comm 1 i]

theorem c4_view_primary_key_redirect_witness :
    ∃ cols,
      IndexColumnList
        ⟨[("Base", { createTable := some { name := "Base", primaryKeys := ["id"] } }),
          ("V", { createView := some { name := "V", querySource := .tableName "Base" } })]⟩
        "V" "PRIMARY_KEY" = .ok cols ∧
      cols.length = (["id"] : List String).length ∧
      ∀ i, i < (["id"] : List String).length →
        cols.getD i { SeqNo := 0, Storing := false, ColumnName := "" } =
          { SeqNo := i + 1, Storing := false,
            ColumnName := (["id"] : List String).getD i "" } :=
  c4_view_primary_key_redirect
    [DDL.createTable { name := "Base", primaryKeys := ["id"] },
     DDL.createView { name := "V", querySource := .tableName "Base" }]
    ⟨[("Base", { createTable := some { name := "Base", primaryKeys := ["id"] } }),
      ("V", { createView := some { name := "V", querySource := .tableName "Base" } })]⟩
    rfl "V" "Base" _ _ _ _ rfl rfl rfl rfl rfl

/-- C5: primary-key resolution on a view fails with the explicit
"view with join is not supported" error when the re-parsed query's
top-level FROM source is a join, and with the "unknown source type" error
naming the unsupported shape for any other non-single-table source; and
these two error kinds never arise at catalog build time (build failures
are only undefined-table or unsupported-statement errors). -/
theorem c5_view_source_errors (ddls : List DDL) (s : SpannerLoaderFromDDL)
    (_hbuild : NewSpannerLoaderFromDDL ddls = .ok s)
    (V : String) (tbl : tableOrView) (cv : CreateView)
    (hreg : mapGet s.tables V = some tbl)
    (hv : tbl.createView = some cv) :
    (cv.querySource = .join →
      IndexColumnList s V "PRIMARY_KEY" = .err .viewJoin ∧
      GoError.message .viewJoin = "view with join is not supported") ∧
    (∀ ty, cv.querySource = .other ty →
      IndexColumnList s V "PRIMARY_KEY" = .err (.unknownSource ty) ∧
      GoError.message (.unknownSource ty) = "unknown source type: " ++ ty) ∧
    (∀ ddls2 e, NewSpannerLoaderFromDDL ddls2 = .error e →
      (∃ t q, e = .undefinedTable t q) ∨ ∃ q, e = .unsupportedStmt q) := by
  refine ⟨?_, ?_, ?_⟩
  · intro hj
    constructor
    · simp [IndexColumnList, primaryKeyColumnList, hreg, hv, hj, baseTablesForViewDDL]
    · rfl
  · intro ty ho
    constructor
    · simp [IndexColumnList, primaryKeyColumnList, hreg, hv, ho, baseTablesForViewDDL]
    · rfl
  · intro ddls2 e h
    have h' : buildTables [] ddls2 = .error e := by
      rcases hb : buildTables [] ddls2 with e' | m
      · simpa [NewSpannerLoaderFromDDL, hb, Except.map] using h
      · simp [NewSpannerLoaderFromDDL, hb, Except.map] at h
    exact buildTables_error_shape ddls2 [] e h'

theorem c5_view_source_errors_witness :
    (QuerySource.join = QuerySource.join →
      IndexColumnList
        ⟨[("Base", { createTable := some { name := "Base", primaryKeys := ["id"] } }),
          ("V", { createView := some { name := "V", querySource := .join } })]⟩
        "V" "PRIMARY_KEY" = .err .viewJoin ∧
      GoError.message .viewJoin = "view with join is not supported") ∧
    (∀ ty, QuerySource.join = QuerySource.other ty →
      IndexColumnList
        ⟨[("Base", { createTable := some { name := "Base", primaryKeys := ["id"] } }),
          ("V", { createView := some { name := "V", querySource := .join } })]⟩
        "V" "PRIMARY_KEY" = .err (.unknownSource ty) ∧
      GoError.message (.unknownSource ty) = "unknown source type: " ++ ty) ∧
    (∀ ddls2 e, NewSpannerLoaderFromDDL ddls2 = .error e →
      (∃ t q, e = .undefinedTable t q) ∨ ∃ q, e = .unsupportedStmt q) :=
  c5_view_source_errors
    [DDL.createTable { name := "Base", primaryKeys := ["id"] },
     DDL.createView { name := "V", querySource := .join }]
    ⟨[("Base", { createTable := some { name := "Base", primaryKeys := ["id"] } }),
      ("V", { createView := some { name := "V", querySource := .join } })]⟩
    rfl "V" _ _ rfl rfl

/-- C10: on a registered view whose query re-parses to a single-table
source, the lookup of the resolved base-table name is unguarded: when that
name carries no table definition in the catalog the resolver dereferences
a nil `createTable` (a panic), and the panic branch is unreachable exactly
when the base table is registered with a table definition, in which case
its primary-key columns are returned. -/
theorem c10_unguarded_base_lookup (ddls : List DDL) (s : SpannerLoaderFromDDL)
    (_hbuild : NewSpannerLoaderFromDDL ddls = .ok s)
    (V B : String) (tbl : tableOrView) (cv : CreateView)
    (hreg : mapGet s.tables V = some tbl)
    (hv : tbl.createView = some cv)
    (hsrc : cv.querySource = .tableName B) :
    ((mapGetZ s.tables B).createTable = none →
      IndexColumnList s V "PRIMARY_KEY" = .nilPanic) ∧
    (∀ ct, (mapGetZ s.tables B).createTable = some ct →
      IndexColumnList s V "PRIMARY_KEY" = .ok (numberFrom 1 ct.primaryKeys)) := by
  constructor
  · intro hnone
    simp [IndexColumnList, primaryKeyColumnList, hreg, hv, hsrc,
      baseTablesForViewDDL, firstOrDefault, hnone, pkFromCreateTable]
  · intro ct hsome
    simp [IndexColumnList, primaryKeyColumnList, hreg, hv, hsrc,
      baseTablesForViewDDL, firstOrDefault, hsome, pkFromCreateTable]

theorem c10_unguarded_base_lookup_witness :
    ((mapGetZ
        [("V", { createView := some { name := "V", querySource := .tableName "Missing" } })]
        "Missing").createTable = none →
      IndexColumnList
        ⟨[("V", { createView := some { name := "V", querySource := .tableName "Missing" } })]⟩
        "V" "PRIMARY_KEY" = .nilPanic) ∧
    (∀ ct,
      (mapGetZ
        [("V", { createView := some { name := "V", querySource := .tableName "Missing" } })]
        "Missing").createTable = some ct →
      IndexColumnList
        ⟨[("V", { createView := some { name := "V", querySource := .tableName "Missing" } })]⟩
        "V" "PRIMARY_KEY" = .ok (numberFrom 1 ct.primaryKeys)) :=
  c10_unguarded_base_lookup
    [DDL.createView { name := "V", querySource := .tableName "Missing" }]
    ⟨[("V", { createView := some { name := "V", querySource := .tableName "Missing" } })]⟩
    rfl "V" "Missing" _ _ rfl rfl rfl

/-! Claims about the index-column scan. -/

theorem scanIndexes_no_match (index : String) (ixs : List CreateIndex)
    (h : ∀ ix ∈ ixs, ix.name ≠ index) : scanIndexes index ixs = [] := by
  induction ixs with
  | nil => rfl
  | cons ix rest ih =>
    have hne : ix.name ≠ index := h ix (List.mem_cons_self _ _)
    simp only [scanIndexes, if_neg hne]
    exact ih fun ix2 h2 => h ix2 (List.mem_cons_of_mem _ h2)

theorem scanIndexes_first_match (index : String) (pre : List CreateIndex)
    (ix : CreateIndex) (post : List CreateIndex)
    (hpre : ∀ ix2 ∈ pre, ix2.name ≠ index) (hix : ix.name = index) :
    scanIndexes index (pre ++ ix :: post) = indexColsOf ix := by
  induction pre with
  | nil => simp [scanIndexes, if_pos hix]
  | cons p rest ih =>
    have hne : p.name ≠ index := hpre p (List.mem_cons_self _ _)
    simp only [List.cons_append, scanIndexes, if_neg hne]
    exact ih fun ix2 h2 => hpre ix2 (List.mem_cons_of_mem _ h2)

theorem indexColsOf_getD (ix : CreateIndex) :
    (indexColsOf ix).length = (ix.storing.getD []).length + ix.keys.length ∧
    (∀ i, i < (ix.storing.getD []).length →
      (indexColsOf ix).getD i { SeqNo := 0, Storing := false, ColumnName := "" } =
        { SeqNo := 0, Storing := true,
          ColumnName := (ix.storing.getD []).getD i "" }) ∧
    (∀ j, j < ix.keys.length →
      (indexColsOf ix).getD ((ix.storing.getD []).length + j)
          { SeqNo := 0, Storing := false, ColumnName := "" } =
        { SeqNo := j + 1, Storing := false, ColumnName := ix.keys.getD j "" }) := by
  have hfront : indexColsOf ix = storingCols (ix.storing.getD []) ++ numberFrom 1 ix.keys := by
    rcases hst : ix.storing with _ | cs <;> simp [indexColsOf, storingCols, hst]
  rw [hfront]
  refine ⟨by simp [storingCols_length, numberFrom_length], ?_, ?_⟩
  · intro i hi
    rw [List.getD_append _ _ _ _ (by simpa [storingCols_length] using hi)]
    exact storingCols_getD _ i _ hi
  · intro j hj
    rw [List.getD_append_right _ _ _ _ (by simp [storingCols_length])]
    have : (ix.storing.getD []).length + j - (storingCols (ix.storing.getD [])).length = j := by
      simp [storingCols_length]
    rw [this, numberFrom_getD _ _ _ _ hj, Nat.add_comm 1 j]

/-- C3: for a registered table and an index name other than
`"PRIMARY_KEY"`, `IndexColumnList` scans the aggregate's indexes in
declaration order; the first index whose name matches yields its storing
columns first (sequence number 0, storing flag set, declared order)
followed by its key columns (1-based sequence numbers, declared order,
storing flag clear), and the scan stops at that first match; when no index
name matches the result is empty and there is no error. -/
theorem c3_index_scan (ddls : List DDL) (s : SpannerLoaderFromDDL)
    (_hbuild : NewSpannerLoaderFromDDL ddls = .ok s)
    (table index : String) (hpk : index ≠ "PRIMARY_KEY") :
    ((∀ ix ∈ (mapGetZ s.tables table).createIndexes, ix.name ≠ index) →
      IndexColumnList s table index = .ok []) ∧
    (∀ pre ix post,
      (mapGetZ s.tables table).createIndexes = pre ++ ix :: post →
      (∀ ix2 ∈ pre, ix2.name ≠ index) → ix.name = index →
      ∃ cols, IndexColumnList s table index = .ok cols ∧
        cols.length = (ix.storing.getD []).length + ix.keys.length ∧
        (∀ i, i < (ix.storing.getD []).length →
          cols.getD i { SeqNo := 0, Storing := false, ColumnName := "" } =
            { SeqNo := 0, Storing := true,
              ColumnName := (ix.storing.getD []).getD i "" }) ∧
        (∀ j, j < ix.keys.length →
          cols.getD ((ix.storing.getD []).length + j)
              { SeqNo := 0, Storing := false, ColumnName := "" } =
            { SeqNo := j + 1, Storing := false, ColumnName := ix.keys.getD j "" })) := by
  constructor
  · intro hnone
    simp [IndexColumnList, if_neg hpk, scanIndexes_no_match index _ hnone]
  · intro pre ix post hsplit hpre hix
    refine ⟨indexColsOf ix, ?_, indexColsOf_getD ix⟩
    simp [IndexColumnList, if_neg hpk, hsplit,
      scanIndexes_first_match index pre ix post hpre hix]

theorem c3_index_scan_witness :
    ((∀ ix ∈ (mapGetZ
        [("T", { createTable := some { name := "T", primaryKeys := ["k1"] },
                 createIndexes :=
                   [{ name := "Ix", tableName := "T", unique := false,
                      storing := some ["s1", "s2"], keys := ["k1", "k2"],
                      sql := "CREATE INDEX Ix ON T(k1, k2) STORING (s1, s2)" }] })]
        "T").createIndexes, ix.name ≠ "Ix") →
      IndexColumnList
        ⟨[("T", { createTable := some { name := "T", primaryKeys := ["k1"] },
                  createIndexes :=
                    [{ name := "Ix", tableName := "T", unique := false,
                       storing := some ["s1", "s2"], keys := ["k1", "k2"],
                       sql := "CREATE INDEX Ix ON T(k1, k2) STORING (s1, s2)" }] })]⟩
        "T" "Ix" = .ok []) ∧
    (∀ pre ix post,
      (mapGetZ
        [("T", { createTable := some { name := "T", primaryKeys := ["k1"] },
                 createIndexes :=
                   [{ name := "Ix", tableName := "T", unique := false,
                      storing := some ["s1", "s2"], keys := ["k1", "k2"],
                      sql := "CREATE INDEX Ix ON T(k1, k2) STORING (s1, s2)" }] })]
        "T").createIndexes = pre ++ ix :: post →
      (∀ ix2 ∈ pre, ix2.name ≠ "Ix") → ix.name = "Ix" →
      ∃ cols,
        IndexColumnList
          ⟨[("T", { createTable := some { name := "T", primaryKeys := ["k1"] },
                    createIndexes :=
                      [{ name := "Ix", tableName := "T", unique := false,
                         storing := some ["s1", "s2"], keys := ["k1", "k2"],
                         sql := "CREATE INDEX Ix ON T(k1, k2) STORING (s1, s2)" }] })]⟩
          "T" "Ix" = .ok cols ∧
        cols.length = (ix.storing.getD []).length + ix.keys.length ∧
        (∀ i, i < (ix.storing.getD []).length →
          cols.getD i { SeqNo := 0, Storing := false, ColumnName := "" } =
            { SeqNo := 0, Storing := true,
              ColumnName := (ix.storing.getD []).getD i "" }) ∧
        (∀ j, j < ix.keys.length →
          cols.getD ((ix.storing.getD []).length + j)
              { SeqNo := 0, Storing := false, ColumnName := "" } =
            { SeqNo := j + 1, Storing := false, ColumnName := ix.keys.getD j "" })) :=
  c3_index_scan
    [DDL.createTable { name := "T", primaryKeys := ["k1"] },
     DDL.createIndex
       { name := "Ix", tableName := "T", unique := false,
         storing := some ["s1", "s2"], keys := ["k1", "k2"],
         sql := "CREATE INDEX Ix ON T(k1, k2) STORING (s1, s2)" }]
    ⟨[("T", { createTable := some { name := "T", primaryKeys := ["k1"] },
              createIndexes :=
                [{ name := "Ix", tableName := "T", unique := false,
                   storing := some ["s1", "s2"], keys := ["k1", "k2"],
                   sql := "CREATE INDEX Ix ON T(k1, k2) STORING (s1, s2)" }] })]⟩
    rfl "T" "Ix" (by decide)

/-! Claims about the catalog builder. -/

theorem buildTables_append (m : TableMap) (xs ys : List DDL) :
    buildTables m (xs ++ ys) =
      match buildTables m xs with
      | .error e => .error e
      | .ok m' => buildTables m' ys := by
  induction xs generalizing m with
  | nil => simp [buildTables]
  | cons d rest ih =>
    simp only [List.cons_append, buildTables]
    rcases processDDL m d with e | m' <;> simp [ih]

/-- C6: an alter-table statement whose alteration adds a constraint is a
no-op for the catalog (construction gives the same result as without the
statement); any other alteration kind makes construction fail with the
unsupported-statement error, whose message carries the statement's
rendered text. -/
theorem c6_alter_table (pre post : List DDL) (a : AlterTable) :
    (a.alteration = .addTableConstraint →
      NewSpannerLoaderFromDDL (pre ++ DDL.alterTable a :: post) =
        NewSpannerLoaderFromDDL (pre ++ post)) ∧
    (∀ m, a.alteration = .otherAlteration → buildTables [] pre = .ok m →
      NewSpannerLoaderFromDDL (pre ++ DDL.alterTable a :: post) =
        .error (.unsupportedStmt a.sql) ∧
      GoError.message (.unsupportedStmt a.sql) =
        "stmt should be CreateTable, CreateIndex or AlterTableAddConstraint, but got '"
          ++ a.sql ++ "'") := by
  constructor
  · intro h
    have key : ∀ m', buildTables m' (DDL.alterTable a :: post) = buildTables m' post := by
      intro m'
      simp [buildTables, processDDL, h]
    rw [NewSpannerLoaderFromDDL, NewSpannerLoaderFromDDL,
      buildTables_append, buildTables_append]
    rcases buildTables [] pre with e | m' <;> simp [key]
  · intro m h hok
    refine ⟨?_, rfl⟩
    rw [NewSpannerLoaderFromDDL, buildTables_append, hok]
    simp [buildTables, processDDL, h, Except.map]

theorem c6_alter_table_witness :
    (NewSpannerLoaderFromDDL
        [DDL.createTable { name := "T", primaryKeys := ["id"] },
         DDL.alterTable { alteration := .addTableConstraint,
                          sql := "ALTER TABLE T ADD CONSTRAINT c FOREIGN KEY (a) REFERENCES U (a)" }] =
      NewSpannerLoaderFromDDL [DDL.createTable { name := "T", primaryKeys := ["id"] }]) ∧
    (NewSpannerLoaderFromDDL
        [DDL.createTable { name := "T", primaryKeys := ["id"] },
         DDL.alterTable { alteration := .otherAlteration,
                          sql := "ALTER TABLE T DROP COLUMN c" }] =
      .error (.unsupportedStmt "ALTER TABLE T DROP COLUMN c")) := by
  constructor
  · exact (c6_alter_table [DDL.createTable { name := "T", primaryKeys := ["id"] }] []
      { alteration := .addTableConstraint,
        sql := "ALTER TABLE T ADD CONSTRAINT c FOREIGN KEY (a) REFERENCES U (a)" }).1 rfl
  · exact ((c6_alter_table [DDL.createTable { name := "T", primaryKeys := ["id"] }] []
      { alteration := .otherAlteration, sql := "ALTER TABLE T DROP COLUMN c" }).2
      [("T", { createTable := some { name := "T", primaryKeys := ["id"] } })] rfl rfl).1

/-! Map update lemmas. -/

theorem mapGet_set_self (m : TableMap) (k : String) (v : tableOrView) :
    mapGet (mapSet m k v) k = some v := by
  induction m with
  | nil => simp [mapGet, mapSet]
  | cons p rest ih =>
    obtain ⟨k', v'⟩ := p
    by_cases h : k' = k
    · simp [mapSet, h, mapGet]
    · simp [mapSet, h, mapGet, ih]

theorem mapGet_set_ne (m : TableMap) (k k' : String) (v : tableOrView)
    (h : k ≠ k') : mapGet (mapSet m k v) k' = mapGet m k' := by
  induction m with
  | nil => simp [mapGet, mapSet, h]
  | cons p rest ih =>
    obtain ⟨k₀, v₀⟩ := p
    by_cases h0 : k₀ = k
    · subst h0; simp [mapSet, mapGet, h]
    · simp [mapSet, h0, mapGet, ih]

theorem mapGetZ_set_self (m : TableMap) (k : String) (v : tableOrView) :
    mapGetZ (mapSet m k v) k = v := by
  simp [mapGetZ, mapGet_set_self]

theorem mapGetZ_set_ne (m : TableMap) (k k' : String) (v : tableOrView)
    (h : k ≠ k') : mapGetZ (mapSet m k v) k' = mapGetZ m k' := by
  simp [mapGetZ, mapGet_set_ne m k k' v h]

theorem mapGet_set_isSome (m : TableMap) (k : String) (v : tableOrView)
    (n : String) (h : (mapGet m n).isSome) :
    (mapGet (mapSet m k v) n).isSome := by
  by_cases hk : k = n
  · subst hk; simp [mapGet_set_self]
  · rwa [mapGet_set_ne m k n v hk]

theorem newLoader_error_iff (ddls : List DDL) (e : GoError) :
    NewSpannerLoaderFromDDL ddls = .error e ↔ buildTables [] ddls = .error e := by
  rcases hb : buildTables [] ddls with e' | m <;>
    simp [NewSpannerLoaderFromDDL, hb, Except.map]

/-- Characterisation of the undefined-table failure: the statement loop
fails with `undefinedTable t q` exactly when some create-index statement
is reached (everything before it processed successfully) whose target
table name has no aggregate at that point, and `t`/`q` are that index's
table name and rendered text. -/
theorem buildTables_undefined_iff (ddls : List DDL) (m : TableMap) (t q : String) :
    buildTables m ddls = .error (.undefinedTable t q) ↔
    ∃ pre ci post m', ddls = pre ++ DDL.createIndex ci :: post ∧
      t = ci.tableName ∧ q = ci.sql ∧
      buildTables m pre = .ok m' ∧ mapGet m' ci.tableName = none := by
  induction ddls generalizing m with
  | nil =>
    constructor
    · intro h
      simp [buildTables] at h
    · rintro ⟨pre, ci, post, m', hsplit, -⟩
      exact absurd hsplit (by cases pre <;> simp)
  | cons d rest ih =>
    constructor
    · intro h
      rcases hp : processDDL m d with e | m₁
      · have he : e = .undefinedTable t q := by
          simpa [buildTables, hp] using h
        subst he
        cases d with
        | createIndex ci =>
          rcases hm : mapGet m ci.tableName with _ | v
          · have heq : GoError.undefinedTable ci.tableName ci.sql =
                GoError.undefinedTable t q := by
              simpa [processDDL, hm] using hp
            have ht : ci.tableName = t := by injection heq
            have hq : ci.sql = q := by injection heq
            exact ⟨[], ci, rest, m, by simp, ht.symm, hq.symm,
              by simp [buildTables], hm⟩
          · simp [processDDL, hm] at hp
        | alterTable a =>
          cases ha : a.alteration with
          | addTableConstraint => simp [processDDL, ha] at hp
          | otherAlteration => simp [processDDL, ha] at hp
        | createTable ct => simp [processDDL] at hp
        | createView cv => simp [processDDL] at hp
        | otherStatement sql => simp [processDDL] at hp
      · have h' : buildTables m₁ rest = .error (.undefinedTable t q) := by
          simpa [buildTables, hp] using h
        obtain ⟨pre, ci, post, m', hsplit, ht, hq, hpre, hnone⟩ := (ih m₁).mp h'
        refine ⟨d :: pre, ci, post, m', by simp [hsplit], ht, hq, ?_, hnone⟩
        simp [buildTables, hp, hpre]
    · rintro ⟨pre, ci, post, m', hsplit, ht, hq, hpre, hnone⟩
      cases pre with
      | nil =>
        simp only [List.nil_append, List.cons.injEq] at hsplit
        obtain ⟨hd, hrest⟩ := hsplit
        have hm' : m = m' := by
          simpa [buildTables] using hpre
        subst hd hrest hm' ht hq
        simp [buildTables, processDDL, hnone]
      | cons d' pre' =>
        simp only [List.cons_append, List.cons.injEq] at hsplit
        obtain ⟨hd, hrest⟩ := hsplit
        subst hd
        rcases hp : processDDL m d with e | m₁
        · rw [buildTables, hp] at hpre
          cases hpre
        · have hpre' : buildTables m₁ pre' = .ok m' := by
            simpa [buildTables, hp] using hpre
          have hrec := (ih m₁).mpr ⟨pre', ci, post, m', hrest, ht, hq, hpre', hnone⟩
          simpa [buildTables, hp] using hrec

/-- When every create-index statement is preceded by a create-table of its
target table (or the table is already in the starting map), and the
sequence holds only create-table and create-index statements, the loop
succeeds. -/
theorem buildTables_ok_of (ddls : List DDL) (m : TableMap)
    (hti : ∀ d ∈ ddls, (∃ ct, d = .createTable ct) ∨ ∃ ci, d = .createIndex ci)
    (hord : ∀ (i : Nat) ci, ddls[i]? = some (DDL.createIndex ci) →
      (∃ (j : Nat) (ct : CreateTable), j < i ∧ ddls[j]? = some (DDL.createTable ct) ∧
        ct.name = ci.tableName) ∨
      (mapGet m ci.tableName).isSome) :
    ∃ m', buildTables m ddls = .ok m' := by
  induction ddls generalizing m with
  | nil => exact ⟨m, rfl⟩
  | cons d rest ih =>
    rcases hti d (List.mem_cons_self _ _) with ⟨ct, rfl⟩ | ⟨ci, rfl⟩
    · have hstep :
          processDDL m (.createTable ct) =
            .ok (mapSet m ct.name
              { mapGetZ m ct.name with createTable := some ct }) := rfl
      obtain ⟨m', hm'⟩ := ih (mapSet m ct.name
          { mapGetZ m ct.name with createTable := some ct })
        (fun d' hd' => hti d' (List.mem_cons_of_mem _ hd'))
        (by
          intro i ci hi
          rcases hord (i + 1) ci (by simpa using hi) with ⟨j, ct', hj, hget, hname⟩ | hsome
          · cases j with
            | zero =>
              right
              simp only [List.getElem?_cons_zero, Option.some.injEq] at hget
              have : ct' = ct := by
                injection hget.symm
              subst this
              rw [← hname]
              simp [mapGet_set_self]
            | succ j' =>
              left
              exact ⟨j', ct', by omega, by simpa using hget, hname⟩
          · right
            exact mapGet_set_isSome m ct.name _ ci.tableName hsome)
      exact ⟨m', by simp [buildTables, hstep, hm']⟩
    · have hsome : (mapGet m ci.tableName).isSome := by
        rcases hord 0 ci (by simp) with ⟨j, ct', hj, -⟩ | hsome
        · omega
        · exact hsome
      rcases hm : mapGet m ci.tableName with _ | v
      · rw [hm] at hsome; cases hsome
      · have hstep :
            processDDL m (.createIndex ci) =
              .ok (mapSet m ci.tableName
                { v with createIndexes := v.createIndexes ++ [ci] }) := by
          simp [processDDL, hm]
        obtain ⟨m', hm'⟩ := ih (mapSet m ci.tableName
            { v with createIndexes := v.createIndexes ++ [ci] })
          (fun d' hd' => hti d' (List.mem_cons_of_mem _ hd'))
          (by
            intro i ci' hi
            rcases hord (i + 1) ci' (by simpa using hi) with ⟨j, ct', hj, hget, hname⟩ | hsome'
            · cases j with
              | zero =>
                simp only [List.getElem?_cons_zero, Option.some.injEq] at hget
                cases hget
              | succ j' =>
                left
                exact ⟨j', ct', by omega, by simpa using hget, hname⟩
            · right
              exact mapGet_set_isSome m ci.tableName _ ci'.tableName hsome')
        exact ⟨m', by simp [buildTables, hstep, hm']⟩

/-- The create-index statements of a sequence targeting a given table
name, in declaration order. -/
def indexesFor (name : String) (ddls : List DDL) : List CreateIndex :=
  ddls.filterMap fun d =>
    match d with
    | .createIndex ci => if ci.tableName = name then some ci else none
    | _ => none

/-- A successful run of the loop appends exactly the create-index
statements targeting each name, in declaration order, to that name's
aggregate. -/
theorem buildTables_indexes (ddls : List DDL) (m m' : TableMap)
    (h : buildTables m ddls = .ok m') (name : String) :
    (mapGetZ m' name).createIndexes =
      (mapGetZ m name).createIndexes ++ indexesFor name ddls := by
  induction ddls generalizing m with
  | nil =>
    have : m = m' := by simpa [buildTables] using h
    subst this
    simp [indexesFor]
  | cons d rest ih =>
    cases d with
    | createTable ct =>
      have h' : buildTables
          (mapSet m ct.name { mapGetZ m ct.name with createTable := some ct })
          rest = .ok m' := by
        simpa [buildTables, processDDL] using h
      rw [ih _ h']
      have hkeep :
          (mapGetZ (mapSet m ct.name
            { mapGetZ m ct.name with createTable := some ct }) name).createIndexes =
          (mapGetZ m name).createIndexes := by
        by_cases hk : ct.name = name
        · subst hk; rw [mapGetZ_set_self]
        · rw [mapGetZ_set_ne _ _ _ _ hk]
      rw [hkeep]
      simp [indexesFor]
    | createIndex ci =>
      rcases hm : mapGet m ci.tableName with _ | v
      · simp [buildTables, processDDL, hm] at h
      · have h' : buildTables
            (mapSet m ci.tableName { v with createIndexes := v.createIndexes ++ [ci] })
            rest = .ok m' := by
          simpa [buildTables, processDDL, hm] using h
        rw [ih _ h']
        by_cases hk : ci.tableName = name
        · subst hk
          rw [mapGetZ_set_self]
          have hv : mapGetZ m ci.tableName = v := by simp [mapGetZ, hm]
          simp [indexesFor, hv, List.append_assoc]
        · rw [mapGetZ_set_ne _ _ _ _ hk]
          simp [indexesFor, hk]
    | alterTable a =>
      cases ha : a.alteration with
      | addTableConstraint =>
        have h' : buildTables m rest = .ok m' := by
          simpa [buildTables, processDDL, ha] using h
        rw [ih _ h']
        simp [indexesFor]
      | otherAlteration => simp [buildTables, processDDL, ha] at h
    | createView cv =>
      have h' : buildTables
          (mapSet m cv.name { mapGetZ m cv.name with createView := some cv })
          rest = .ok m' := by
        simpa [buildTables, processDDL] using h
      rw [ih _ h']
      have hkeep :
          (mapGetZ (mapSet m cv.name
            { mapGetZ m cv.name with createView := some cv }) name).createIndexes =
          (mapGetZ m name).createIndexes := by
        by_cases hk : cv.name = name
        · subst hk; rw [mapGetZ_set_self]
        · rw [mapGetZ_set_ne _ _ _ _ hk]
      rw [hkeep]
      simp [indexesFor]
    | otherStatement sql =>
      have h' : buildTables m rest = .ok m' := by
        simpa [buildTables, processDDL] using h
      rw [ih _ h']
      simp [indexesFor]

/-- C2: catalog construction fails with the undefined-table error — whose
arguments are the missing table's name and the offending statement's
rendered text — exactly when a create-index statement is reached (all
statements before it processed successfully) whose target table has no
aggregate yet; and when the sequence consists of create-table and
create-index statements with every table declared before its indexes,
construction succeeds and every aggregate carries exactly the indexes
declared on it, in declaration order. -/
theorem c2_build_order (ddls : List DDL) :
    (∀ t q, NewSpannerLoaderFromDDL ddls = .error (.undefinedTable t q) ↔
      ∃ pre ci post m', ddls = pre ++ DDL.createIndex ci :: post ∧
        t = ci.tableName ∧ q = ci.sql ∧
        buildTables [] pre = .ok m' ∧ mapGet m' ci.tableName = none) ∧
    ((∀ d ∈ ddls, (∃ ct, d = .createTable ct) ∨ ∃ ci, d = .createIndex ci) →
     (∀ (i : Nat) ci, ddls[i]? = some (DDL.createIndex ci) →
        ∃ (j : Nat) (ct : CreateTable), j < i ∧
          ddls[j]? = some (DDL.createTable ct) ∧ ct.name = ci.tableName) →
     ∃ s, NewSpannerLoaderFromDDL ddls = .ok s ∧
       ∀ name, (mapGetZ s.tables name).createIndexes = indexesFor name ddls) := by
  constructor
  · intro t q
    rw [newLoader_error_iff]
    exact buildTables_undefined_iff ddls [] t q
  · intro hti hord
    obtain ⟨m', hm'⟩ :=
      buildTables_ok_of ddls [] hti (fun i ci hi => Or.inl (hord i ci hi))
    refine ⟨⟨m'⟩, ?_, ?_⟩
    · simp [NewSpannerLoaderFromDDL, hm', Except.map]
    · intro name
      have hinv := buildTables_indexes ddls [] m' hm' name
      simpa [mapGetZ, mapGet] using hinv

theorem c2_build_order_witness :
    (NewSpannerLoaderFromDDL
        [DDL.createIndex
          { name := "Ix0", tableName := "T", unique := false,
            storing := none, keys := ["id"], sql := "CREATE INDEX Ix0 ON T(id)" }] =
      .error (.undefinedTable "T" "CREATE INDEX Ix0 ON T(id)")) ∧
    (∃ s,
      NewSpannerLoaderFromDDL
        [DDL.createTable { name := "T", primaryKeys := ["id"] },
         DDL.createIndex
           { name := "Ix1", tableName := "T", unique := false,
             storing := none, keys := ["id"], sql := "CREATE INDEX Ix1 ON T(id)" }] =
        .ok s ∧
      ∀ name, (mapGetZ s.tables name).createIndexes =
        indexesFor name
          [DDL.createTable { name := "T", primaryKeys := ["id"] },
           DDL.createIndex
             { name := "Ix1", tableName := "T", unique := false,
               storing := none, keys := ["id"], sql := "CREATE INDEX Ix1 ON T(id)" }]) := by
  constructor
  · exact ((c2_build_order
      [DDL.createIndex
        { name := "Ix0", tableName := "T", unique := false,
          storing := none, keys := ["id"], sql := "CREATE INDEX Ix0 ON T(id)" }]).1
      "T" "CREATE INDEX Ix0 ON T(id)").mpr
      ⟨[], _, [], [], rfl, rfl, rfl, rfl, rfl⟩
  · refine (c2_build_order
      [DDL.createTable { name := "T", primaryKeys := ["id"] },
       DDL.createIndex
         { name := "Ix1", tableName := "T", unique := false,
           storing := none, keys := ["id"], sql := "CREATE INDEX Ix1 ON T(id)" }]).2
      ?_ ?_
    · intro d hd
      simp only [List.mem_cons, List.not_mem_nil, or_false] at hd
      rcases hd with rfl | rfl
      · exact Or.inl ⟨_, rfl⟩
      · exact Or.inr ⟨_, rfl⟩
    · intro i ci hi
      cases i with
      | zero => simp at hi
      | succ i' =>
        cases i' with
        | zero =>
          simp only [List.getElem?_cons_succ, List.getElem?_cons_zero,
            Option.some.injEq] at hi
          cases hi
          exact ⟨0, { name := "T", primaryKeys := ["id"] }, by omega, rfl, rfl⟩
        | succ i'' => simp at hi

/-! Claims about unrecognized statements and `TableList`. -/

/-- C7 counterexample: a DDL sequence holding one statement outside the
four recognized kinds (e.g. `DROP TABLE t1`, parsed as `*ast.DropTable`)
makes catalog construction succeed with an empty catalog — the statement
is silently ignored, not rejected with an unsupported-statement error. -/
theorem c7_unrecognized_not_rejected_cex :
    NewSpannerLoaderFromDDL [DDL.otherStatement "DROP TABLE t1"] = .ok ⟨[]⟩ := rfl

/-- C7 (amended): a statement whose kind is outside the four recognized
kinds is silently skipped by the type switch (which has no default case):
construction yields the same result as without the statement. -/
theorem c7_unrecognized_silently_skipped (pre post : List DDL) (sql : String) :
    NewSpannerLoaderFromDDL (pre ++ DDL.otherStatement sql :: post) =
      NewSpannerLoaderFromDDL (pre ++ post) := by
  have key : ∀ m', buildTables m' (DDL.otherStatement sql :: post) =
      buildTables m' post := by
    intro m'
    simp [buildTables, processDDL]
  rw [NewSpannerLoaderFromDDL, NewSpannerLoaderFromDDL,
    buildTables_append, buildTables_append]
  rcases buildTables [] pre with e | m' <;> simp [key]

/-- C8: the catalog built from a lone `CREATE VIEW` statement holds one
view-only aggregate, and `TableList` on it dereferences the absent table
definition (`t.createTable.Name.Name` with no nil check): a panic (`none`),
not an exclusion of the aggregate.  The aggregate list has one entry, so
this is its only enumeration. -/
theorem c8_tablelist_panics_on_view_only :
    NewSpannerLoaderFromDDL
        [DDL.createView { name := "V", querySource := .tableName "T" }] =
      .ok ⟨[("V", { createView := some { name := "V", querySource := .tableName "T" } })]⟩ ∧
    TableList
        [("V", { createView := some { name := "V", querySource := .tableName "T" } })] =
      none := by
  exact ⟨rfl, rfl⟩

theorem TableList_some_eq (e : TableMap) (r : List Table)
    (h : TableList e = some r) :
    r = e.map fun p =>
      { TableName := (p.2.createTable.map CreateTable.name).getD "",
        ManualPk := true } := by
  induction e generalizing r with
  | nil =>
    simp only [TableList, Option.some.injEq] at h
    simp [← h]
  | cons p rest ih =>
    rcases hd : tableDescr p.2 with _ | d
    · rw [TableList, hd] at h
      cases h
    · rcases hr : TableList rest with _ | r'
      · rw [TableList, hd, hr] at h
        cases h
      · rw [TableList, hd, hr] at h
        have h' : r = d :: r' := by
          simpa using h.symm
        subst h'
        rcases p with ⟨k, t⟩
        rcases ht : t.createTable with _ | ct
        · rw [tableDescr, ht] at hd
          cases hd
        · rw [tableDescr, ht] at hd
          have hd' : d = { TableName := ct.name, ManualPk := true } := by
            simpa using hd.symm
          simp [ht, hd', ih r' hr]

theorem TableList_perm (e1 e2 : TableMap) (hp : e1.Perm e2)
    (r1 r2 : List Table)
    (h1 : TableList e1 = some r1) (h2 : TableList e2 = some r2) :
    r1.Perm r2 := by
  rw [TableList_some_eq e1 r1 h1, TableList_some_eq e2 r2 h2]
  exact hp.map _

/-- C9 counterexample: the catalog built from two create-table statements
has two valid enumerations of its backing map (Go's `range` order over a
map is unspecified), and `TableList` returns differently ordered results
on them — the enumeration order of two runs on identical DDL text is not
guaranteed to coincide. -/
theorem c9_tablelist_order_cex :
    NewSpannerLoaderFromDDL
        [DDL.createTable { name := "A", primaryKeys := ["a"] },
         DDL.createTable { name := "B", primaryKeys := ["b"] }] =
      .ok ⟨[("A", { createTable := some { name := "A", primaryKeys := ["a"] } }),
            ("B", { createTable := some { name := "B", primaryKeys := ["b"] } })]⟩ ∧
    EnumOf
      ⟨[("A", { createTable := some { name := "A", primaryKeys := ["a"] } }),
        ("B", { createTable := some { name := "B", primaryKeys := ["b"] } })]⟩
      [("A", { createTable := some { name := "A", primaryKeys := ["a"] } }),
       ("B", { createTable := some { name := "B", primaryKeys := ["b"] } })] ∧
    EnumOf
      ⟨[("A", { createTable := some { name := "A", primaryKeys := ["a"] } }),
        ("B", { createTable := some { name := "B", primaryKeys := ["b"] } })]⟩
      [("B", { createTable := some { name := "B", primaryKeys := ["b"] } }),
       ("A", { createTable := some { name := "A", primaryKeys := ["a"] } })] ∧
    TableList
        [("A", { createTable := some { name := "A", primaryKeys := ["a"] } }),
         ("B", { createTable := some { name := "B", primaryKeys := ["b"] } })] ≠
      TableList
        [("B", { createTable := some { name := "B", primaryKeys := ["b"] } }),
         ("A", { createTable := some { name := "A", primaryKeys := ["a"] } })] := by
  refine ⟨rfl, List.Perm.refl _, List.Perm.swap _ _ _, by decide⟩

/-- C9 (amended): catalog construction is a deterministic function of the
statement list (two builds of identical DDL yield the same catalog), and
the per-table accessor `IndexList` is deterministic across the two runs;
`TableList`, however, enumerates the backing map in an unspecified order,
so its results over any two run orders agree only up to permutation. -/
theorem c9_deterministic_up_to_order (ddls : List DDL)
    (s s' : SpannerLoaderFromDDL)
    (h1 : NewSpannerLoaderFromDDL ddls = .ok s)
    (h2 : NewSpannerLoaderFromDDL ddls = .ok s')
    (e1 e2 : TableMap) (he1 : EnumOf s e1) (he2 : EnumOf s' e2)
    (r1 r2 : List Table)
    (hr1 : TableList e1 = some r1) (hr2 : TableList e2 = some r2) :
    s = s' ∧ (∀ name, IndexList s name = IndexList s' name) ∧ r1.Perm r2 := by
  have hss : s = s' := by
    rw [h1] at h2
    injection h2
  subst hss
  refine ⟨rfl, fun _ => rfl, ?_⟩
  exact TableList_perm e1 e2 (he1.trans he2.symm) r1 r2 hr1 hr2

theorem c9_deterministic_up_to_order_witness :
    ⟨[("A", { createTable := some { name := "A", primaryKeys := ["a"] } }),
      ("B", { createTable := some { name := "B", primaryKeys := ["b"] } })]⟩ =
      (⟨[("A", { createTable := some { name := "A", primaryKeys := ["a"] } }),
         ("B", { createTable := some { name := "B", primaryKeys := ["b"] } })]⟩ :
        SpannerLoaderFromDDL) ∧
    (∀ name,
      IndexList
        ⟨[("A", { createTable := some { name := "A", primaryKeys := ["a"] } }),
          ("B", { createTable := some { name := "B", primaryKeys := ["b"] } })]⟩ name =
      IndexList
        ⟨[("A", { createTable := some { name := "A", primaryKeys := ["a"] } }),
          ("B", { createTable := some { name := "B", primaryKeys := ["b"] } })]⟩ name) ∧
    List.Perm
      [({ TableName := "A", ManualPk := true } : Table),
       { TableName := "B", ManualPk := true }]
      [({ TableName := "B", ManualPk := true } : Table),
       { TableName := "A", ManualPk := true }] :=
  c9_deterministic_up_to_order
    [DDL.createTable { name := "A", primaryKeys := ["a"] },
     DDL.createTable { name := "B", primaryKeys := ["b"] }]
    ⟨[("A", { createTable := some { name := "A", primaryKeys := ["a"] } }),
      ("B", { createTable := some { name := "B", primaryKeys := ["b"] } })]⟩
    ⟨[("A", { createTable := some { name := "A", primaryKeys := ["a"] } }),
      ("B", { createTable := some { name := "B", primaryKeys := ["b"] } })]⟩
    rfl rfl
    [("A", { createTable := some { name := "A", primaryKeys := ["a"] } }),
     ("B", { createTable := some { name := "B", primaryKeys := ["b"] } })]
    [("B", { createTable := some { name := "B", primaryKeys := ["b"] } }),
     ("A", { createTable := some { name := "A", primaryKeys := ["a"] } })]
    (List.Perm.refl _) (List.Perm.swap _ _ _)
    [{ TableName := "A", ManualPk := true }, { TableName := "B", ManualPk := true }]
    [{ TableName := "B", ManualPk := true }, { TableName := "A", ManualPk := true }]
    rfl rfl

end Yo
